import Mathlib

/-!
Verification of the ModenaV1 domain-scanning backend.

Shallow embedding of the core modules:
  app/scrapers/dns.py        (scan_dns_records, _extract_record_value)
  app/scrapers/whois.py      (scan_whois, _safe_get, _normalize_date, _normalize_nameservers)
  app/scrapers/subdomains.py (scan_subdomains stub)
  app/routers/scans.py       (create_scan orchestrator)
  app/models.py              (Domain, Scan, DNSRecord, WhoisData rows)

Conventions: Python strings are Lean String, datetimes are Nat ticks,
the relational store is an explicit record of row lists, and the external
DNS / WHOIS capabilities are parameters enumerating the outcome classes the
Python code distinguishes by exception type.
-/

/-- Strip every trailing dot character, the embedding of the Python
expression given by rstrip applied with a dot argument. -/
def rstripDots (s : String) : String :=
  String.mk ((s.data.reverse.dropWhile (fun c => c == '.')).reverse)

/-- Boolean test used to phrase the trailing-root-dot properties: the string
has a final character and that character is a dot. -/
def endsInDot (s : String) : Bool :=
  s.data.getLast? == some '.'

/-- One character-string segment of a TXT answer: dnspython hands back bytes,
the code also tolerates an already decoded str. -/
inductive CharStringSeg where
  | bytes (b : List Nat)
  | str (s : String)
deriving DecidableEq

/-- Decoding of one TXT segment, the embedding of the conditional decode in
the TXT branch: bytes are decoded to text, str is passed through. -/
def decodeSeg : CharStringSeg → String
  | CharStringSeg.bytes b => String.mk (b.map Char.ofNat)
  | CharStringSeg.str s => s

/-- Fields of one resolver answer (rdata) that _extract_record_value reads:
the str form, the MX exchange and preference, the TXT segments, and the SOA
mname, rname and serial. -/
structure Rdata where
  text : String
  exchange : String
  preference : Nat
  strings : List CharStringSeg
  mname : String
  rname : String
  serial : Nat
deriving DecidableEq

/-- Embedding of _extract_record_value from app/scrapers/dns.py: MX strips
trailing dots from the exchange, TXT joins the decoded segments, SOA composes
mname, rname and serial with the f-string, every other type strips trailing
dots from the str form of the answer. -/
def _extract_record_value (rdata : Rdata) (record_type : String) : String :=
  if record_type == "MX" then
    rstripDots rdata.exchange
  else if record_type == "TXT" then
    String.join (rdata.strings.map decodeSeg)
  else if record_type == "SOA" then
    rdata.mname ++ " " ++ rdata.rname ++ " (serial: " ++ toString rdata.serial ++ ")"
  else
    rstripDots rdata.text

/-- Record types queried, in order, the RECORD_TYPES constant. -/
def RECORD_TYPES : List String := ["A", "AAAA", "MX", "TXT", "NS", "CNAME", "SOA"]

/-- Outcome of one resolver call for one record type, matching the exception
classes scan_dns_records distinguishes. -/
inductive DnsOutcome where
  | success (answers : List Rdata) (ttl : Nat)
  | nxdomain
  | noAnswer
  | noNameservers
  | timeout
  | otherError
deriving DecidableEq

/-- One normalized DNS record dict as produced inside scan_dns_records. -/
structure DnsRecordDict where
  record_type : String
  record_value : String
  ttl : Nat
  priority : Option Nat
deriving DecidableEq

/-- Records contributed by one record type: on success every answer becomes a
dict, with the priority field set only for MX; every failure contributes
nothing. -/
def typeRecords (resolve : String → DnsOutcome) (t : String) : List DnsRecordDict :=
  match resolve t with
  | DnsOutcome.success answers ttl =>
      answers.map (fun rdata =>
        { record_type := t
          record_value := _extract_record_value rdata t
          ttl := ttl
          priority := if t == "MX" then some rdata.preference else none })
  | _ => []

/-- Loop of scan_dns_records over the remaining record types. Returns the
collected record dicts together with the list of types actually sent to the
resolver (one entry per resolver call). NXDOMAIN breaks out of the loop;
NoAnswer, NoNameservers, Timeout and the catch-all continue. -/
def scanTypes (resolve : String → DnsOutcome) : List String → List DnsRecordDict × List String
  | [] => ([], [])
  | t :: ts =>
    match resolve t with
    | DnsOutcome.nxdomain => ([], [t])
    | DnsOutcome.success _ _ =>
        let recs := (typeRecords resolve t)
        let rest := scanTypes resolve ts
        (recs ++ rest.1, t :: rest.2)
    | _ =>
        let rest := scanTypes resolve ts
        (rest.1, t :: rest.2)

/-- Embedding of scan_dns_records from app/scrapers/dns.py, parameterized by
the resolver capability. The Python function catches every exception class
inside the loop, so it is total: this Lean function is its returned list. -/
def scan_dns_records (resolve : String → DnsOutcome) : List DnsRecordDict :=
  (scanTypes resolve RECORD_TYPES).1

/-- Record types for which scan_dns_records actually called the resolver. -/
def dns_queried_types (resolve : String → DnsOutcome) : List String :=
  (scanTypes resolve RECORD_TYPES).2

/-- Value shape of a WHOIS field that may arrive as nothing, one string, or a
list of strings, as _safe_get expects. -/
inductive StrOrList where
  | nil
  | one (s : String)
  | many (l : List String)
deriving DecidableEq

/-- Embedding of _safe_get from app/scrapers/whois.py: nothing stays absent,
a list yields its first element when nonempty, a single value is kept as its
string form. -/
def _safe_get : StrOrList → Option String
  | StrOrList.nil => none
  | StrOrList.many l => l.head?
  | StrOrList.one s => some s

/-- Value shape of a WHOIS date field: absent, one datetime, a list of such
values, a string that parses as ISO-8601 (carrying the parsed instant), a
string that fails to parse, or any other type. -/
inductive DateVal where
  | nil
  | dt (t : Nat)
  | listv (l : List DateVal)
  | strOk (t : Nat)
  | strBad
  | other

/-- Scalar phase of _normalize_date after the list unwrap: a datetime is
returned, a parseable ISO string yields its instant, an unparseable string
and every other shape become absent. -/
def dateScalar : DateVal → Option Nat
  | DateVal.dt t => some t
  | DateVal.strOk t => some t
  | _ => none

/-- Embedding of _normalize_date from app/scrapers/whois.py: absent stays
absent, a list is replaced by its first element (absent when empty) before
the scalar phase, which a nested list also fails. -/
def _normalize_date : DateVal → Option Nat
  | DateVal.nil => none
  | DateVal.listv l =>
      match l.head? with
      | some v => dateScalar v
      | none => none
  | v => dateScalar v

/-- Name-server field shape accepted by _normalize_nameservers: absent, a
lone string, or a list of strings. -/
inductive NsInput where
  | nil
  | one (s : String)
  | many (l : List String)
deriving DecidableEq

/-- Raw entries carried by a name-server field value: a lone string is the
singleton list, as in the isinstance coercion of _normalize_nameservers. -/
def rawEntries : NsInput → List String
  | NsInput.nil => []
  | NsInput.one s => [s]
  | NsInput.many l => l

/-- Lowercasing of a Python string, character by character. -/
def lowerStr (s : String) : String :=
  String.mk (s.data.map Char.toLower)

/-- Normalization of one raw name-server entry: lowercase, then strip
trailing dots. -/
def normEntry (s : String) : String :=
  rstripDots (lowerStr s)

/-- Lexicographic order on character lists by code point, the order Python
sorted uses on strings. -/
def charListLe : List Char → List Char → Bool
  | [], _ => true
  | _ :: _, [] => false
  | a :: as, b :: bs =>
    if a < b then true
    else if b < a then false
    else charListLe as bs

/-- Lexicographic order on strings by code point. -/
def strLe (a b : String) : Bool := charListLe a.data b.data

/-- Totality of the lexicographic order. -/
theorem charListLe_total : ∀ a b : List Char, charListLe a b = true ∨ charListLe b a = true
  | [], _ => Or.inl rfl
  | _ :: _, [] => Or.inr rfl
  | a :: as, b :: bs => by
    by_cases hab : a < b
    · exact Or.inl (by simp [charListLe, hab])
    · by_cases hba : b < a
      · exact Or.inr (by simp [charListLe, hba])
      · rcases charListLe_total as bs with h | h
        · exact Or.inl (by simp [charListLe, hab, hba, h])
        · exact Or.inr (by simp [charListLe, hba, hab, h])

/-- Transitivity of the lexicographic order. -/
theorem charListLe_trans : ∀ a b c : List Char,
    charListLe a b = true → charListLe b c = true → charListLe a c = true
  | [], _, _ => fun _ _ => rfl
  | _ :: _, [], _ => fun h1 _ => by simp [charListLe] at h1
  | _ :: _, _ :: _, [] => fun _ h2 => by simp [charListLe] at h2
  | a :: as, b :: bs, c :: cs => by
    intro h1 h2
    by_cases hab : a < b
    · by_cases hbc : b < c
      · simp [charListLe, lt_trans hab hbc]
      · by_cases hcb : c < b
        · simp [charListLe, hbc, hcb] at h2
        · have hbc2 : b = c := le_antisymm (not_lt.mp hcb) (not_lt.mp hbc)
          subst hbc2
          simp [charListLe, hab]
    · by_cases hba : b < a
      · simp [charListLe, hab, hba] at h1
      · have hab2 : a = b := le_antisymm (not_lt.mp hba) (not_lt.mp hab)
        subst hab2
        simp only [charListLe, if_neg hab, if_neg hba] at h1
        by_cases hac : a < c
        · simp [charListLe, hac]
        · by_cases hca : c < a
          · simp [charListLe, hac, hca] at h2
          · simp only [charListLe, if_neg hac, if_neg hca] at h2 ⊢
            exact charListLe_trans as bs cs h1 h2

instance strLe_isTotal : IsTotal String (fun a b => strLe a b = true) :=
  ⟨fun a b => charListLe_total a.data b.data⟩

instance strLe_isTrans : IsTrans String (fun a b => strLe a b = true) :=
  ⟨fun a b c => charListLe_trans a.data b.data c.data⟩

/-- Embedding of _normalize_nameservers from app/scrapers/whois.py: absent
stays absent, a lone string becomes a singleton list, falsy (empty) entries
are dropped, each entry is lowercased and stripped of trailing dots, the
set-based deduplication followed by sorted is modelled as dedup followed by
insertion sort, and an empty result becomes absent. -/
def _normalize_nameservers (ns_value : NsInput) : Option (List String) :=
  match ns_value with
  | NsInput.nil => none
  | _ =>
    let nameservers :=
      (((rawEntries ns_value).filter (fun ns => ns ≠ "")).map normEntry).dedup
    if nameservers = [] then none
    else some (nameservers.insertionSort (fun a b => strLe a b = true))

/-- Parsed WHOIS response fields that scan_whois reads. -/
structure WhoisResp where
  domain_name : Option String
  registrar : StrOrList
  creation_date : DateVal
  expiration_date : DateVal
  updated_date : DateVal
  name_servers : NsInput
  country : StrOrList
  text : Option String

/-- Outcome of the WHOIS lookup capability, matching the exception classes
scan_whois distinguishes: a parsed response, a parse failure
(PywhoisError), or any other failure such as network errors and timeouts. -/
inductive WhoisOutcome where
  | parsed (w : WhoisResp)
  | pywhoisError
  | otherError

/-- Result dict built by scan_whois on success. -/
structure WhoisDict where
  registrar : Option String
  creation_date : Option Nat
  expiration_date : Option Nat
  updated_date : Option Nat
  name_servers : Option (List String)
  registrant_country : Option String
  raw_data : Option String
deriving DecidableEq

/-- Embedding of scan_whois from app/scrapers/whois.py: both exception
branches return no data, a parsed response with an absent domain_name
returns no data, and otherwise the normalized dict is built. The Python
function catches every exception, so it is total. -/
def scan_whois : WhoisOutcome → Option WhoisDict
  | WhoisOutcome.pywhoisError => none
  | WhoisOutcome.otherError => none
  | WhoisOutcome.parsed w =>
    match w.domain_name with
    | none => none
    | some _ =>
      some
        { registrar := _safe_get w.registrar
          creation_date := _normalize_date w.creation_date
          expiration_date := _normalize_date w.expiration_date
          updated_date := _normalize_date w.updated_date
          name_servers := _normalize_nameservers w.name_servers
          registrant_country := _safe_get w.country
          raw_data := w.text }

/-- Row of the domains table, the fields create_scan uses. -/
structure DomainRow where
  id : Nat
  domain_name : String
deriving DecidableEq

/-- Row of the scans table, the fields create_scan uses. -/
structure ScanRow where
  id : Nat
  domain_id : Nat
  status : String
  completed_at : Option Nat
  error_message : Option String
deriving DecidableEq

/-- Row of the dns_records table. -/
structure DnsRow where
  scan_id : Nat
  record_type : String
  record_value : String
  ttl : Option Nat
  priority : Option Nat
deriving DecidableEq

/-- Row of the whois_data table. -/
structure WhoisRow where
  scan_id : Nat
  registrar : Option String
  creation_date : Option Nat
  expiration_date : Option Nat
  updated_date : Option Nat
  name_servers : Option (List String)
  registrant_country : Option String
  raw_data : Option String
deriving DecidableEq

/-- Committed state of the relational store: the row lists plus the next
primary keys the database would assign. -/
structure DB where
  domains : List DomainRow
  scans : List ScanRow
  dns_records : List DnsRow
  whois_rows : List WhoisRow
  nextDomainId : Nat
  nextScanId : Nat
deriving DecidableEq

/-- Request body of the scan endpoint, the ScanCreate schema with its
defaults. -/
structure ScanCreate where
  domain_name : String
  include_subdomains : Bool := true
  include_whois : Bool := true

/-- External world of one create_scan call: the resolver capability handed
to scan_dns_records, the WHOIS lookup outcome handed to scan_whois, one
injected persistence fault (the commit at the mark-completed step raises),
and the clock read by utcnow when the scan finishes. -/
structure ScanEnv where
  dnsResolve : String → DnsOutcome
  whoisOutcome : WhoisOutcome
  failFinalCommit : Bool
  now : Nat

/-- Response of create_scan: the created scan id (201 path), the
HTTPException raised on the handled failure path, or an exception that
escapes create_scan unhandled (the framework turns it into a 500 without
any handler code of this file running). -/
inductive ScanOutcome where
  | created (scan_id : Nat)
  | httpError (code : Nat) (detail : String)
  | unhandledError (detail : String)
deriving DecidableEq

/-- Update applied to the scan row with the given id, leaving every other
row unchanged; the embedding of assigning to the ORM object and
committing. -/
def updateScan (db : DB) (sid : Nat) (f : ScanRow → ScanRow) : DB :=
  { db with scans := db.scans.map (fun s => if s.id == sid then f s else s) }

/-- Message of the TypeError raised when the synchronous orchestrator
iterates the coroutine returned by the async scan_subdomains stub. -/
def coroutineTypeErrorMsg : String := "coroutine object is not iterable"

/-- Message used for the injected persistence failure at the final commit. -/
def commitErrorMsg : String := "commit failed"

/-- Message of the PendingRollbackError raised when a commit is attempted on
a session whose previous commit failed and that was never rolled back. -/
def pendingRollbackMsg : String :=
  "This transaction has been rolled back due to a previous exception during flush"

/-- Embedding of create_scan from app/routers/scans.py.

Step 1 lowercases the name and finds or creates the Domain row (committed at
once). Step 2 inserts the Scan row in running state with no completion time
(committed). Step 3 stages one DnsRow per record returned by
scan_dns_records. Step 4, when include_whois, stages a WhoisRow when
scan_whois returned data. Step 5, when include_subdomains, calls the
scan_subdomains stub: the stub is an async def, so the call yields a
coroutine object and the for loop over it raises TypeError inside the try
block; the except handler then sets the failed status fields and commits,
which flushes the staged child rows together with the update, and re-raises
as a 500 HTTPException. Step 6 otherwise sets status completed plus the
completion time and commits everything; when that commit raises (the
injected fault), the transaction is rolled back and the session enters
pending-rollback state, and since no rollback is ever issued the except
handler's own db.commit() raises PendingRollbackError, which escapes
create_scan unhandled: nothing after the step-2 commit is persisted and the
scan row stays in running state. -/
def create_scan (req : ScanCreate) (env : ScanEnv) (db : DB) : DB × ScanOutcome :=
  let domain_name := req.domain_name.toLower
  let found := db.domains.find? (fun d => d.domain_name == domain_name)
  let domain :=
    match found with
    | some d => d
    | none => { id := db.nextDomainId, domain_name := domain_name }
  let db1 :=
    match found with
    | some _ => db
    | none =>
        { db with
            domains := db.domains ++ [domain]
            nextDomainId := db.nextDomainId + 1 }
  let scan : ScanRow :=
    { id := db1.nextScanId
      domain_id := domain.id
      status := "running"
      completed_at := none
      error_message := none }
  let db2 :=
    { db1 with
        scans := db1.scans ++ [scan]
        nextScanId := db1.nextScanId + 1 }
  let dnsRows : List DnsRow :=
    (scan_dns_records env.dnsResolve).map (fun r =>
      { scan_id := scan.id
        record_type := r.record_type
        record_value := r.record_value
        ttl := some r.ttl
        priority := r.priority })
  let whoisRows : List WhoisRow :=
    if req.include_whois then
      match scan_whois env.whoisOutcome with
      | some w =>
          [{ scan_id := scan.id
             registrar := w.registrar
             creation_date := w.creation_date
             expiration_date := w.expiration_date
             updated_date := w.updated_date
             name_servers := w.name_servers
             registrant_country := w.registrant_country
             raw_data := w.raw_data }]
      | none => []
    else []
  if req.include_subdomains then
    let db3 :=
      { db2 with
          dns_records := db2.dns_records ++ dnsRows
          whois_rows := db2.whois_rows ++ whoisRows }
    let db4 := updateScan db3 scan.id (fun s =>
      { s with
          status := "failed"
          error_message := some coroutineTypeErrorMsg
          completed_at := some env.now })
    (db4, ScanOutcome.httpError 500 ("Scan failed: " ++ coroutineTypeErrorMsg))
  else if env.failFinalCommit then
    (db2, ScanOutcome.unhandledError pendingRollbackMsg)
  else
    let db3 :=
      { db2 with
          dns_records := db2.dns_records ++ dnsRows
          whois_rows := db2.whois_rows ++ whoisRows }
    let db4 := updateScan db3 scan.id (fun s =>
      { s with
          status := "completed"
          completed_at := some env.now })
    (db4, ScanOutcome.created scan.id)

/-- Well-formedness of the committed store: primary keys of existing rows
are below the next keys, ids are unique, and domain names are unique. -/
def DB.WF (db : DB) : Prop :=
  (∀ d ∈ db.domains, d.id < db.nextDomainId) ∧
  (∀ s ∈ db.scans, s.id < db.nextScanId) ∧
  (db.domains.map DomainRow.id).Nodup ∧
  (db.scans.map ScanRow.id).Nodup ∧
  (∀ d1 ∈ db.domains, ∀ d2 ∈ db.domains,
    d1.domain_name = d2.domain_name → d1 = d2)

/-- Trailing-dot stripping leaves no trailing dot: the last character of
rstripDots is never a dot. -/
theorem endsInDot_rstripDots (s : String) : endsInDot (rstripDots s) = false := by
  unfold endsInDot rstripDots
  simp only [List.getLast?_reverse]
  have h := List.head?_dropWhile_not (fun c => c == '.') s.data.reverse
  cases hh : (s.data.reverse.dropWhile (fun c => c == '.')).head? with
  | none => rfl
  | some c =>
    rw [hh] at h
    simpa using h

/-- Split of a character list at spaces, accumulator style. -/
def wordsAux : List Char → List Char → List (List Char)
  | [], acc => [acc.reverse]
  | c :: cs, acc =>
    if c == ' ' then acc.reverse :: wordsAux cs []
    else wordsAux cs (c :: acc)

/-- Space-separated components of a string, used to speak about the names
embedded in the composed SOA value. -/
def spaceComponents (s : String) : List String :=
  (wordsAux s.data []).map String.mk

/-- True when some space-separated component of the string ends in a dot,
that is, when the string contains a name with a trailing root-dot. -/
def hasTrailingDotComponent (s : String) : Bool :=
  (spaceComponents s).any endsInDot

/-- Folding string append from any start equals appending the join. -/
theorem join_foldl (l : List String) : ∀ init : String,
    l.foldl (fun r s => r ++ s) init = init ++ String.join l := by
  induction l with
  | nil => intro init; simp [String.join, String.append_empty]
  | cons x t ih =>
    intro init
    show t.foldl (fun r s => r ++ s) (init ++ x) = init ++ String.join (x :: t)
    rw [ih (init ++ x)]
    show init ++ x ++ String.join t = init ++ List.foldl (fun r s => r ++ s) "" (x :: t)
    rw [String.append_assoc]
    show _ = init ++ List.foldl (fun r s => r ++ s) ("" ++ x) t
    rw [ih ("" ++ x)]
    simp [String.append_assoc]

/-- Join distributes over list append. -/
theorem join_append (a b : List String) :
    String.join (a ++ b) = String.join a ++ String.join b := by
  show List.foldl (fun r s => r ++ s) "" (a ++ b) = _
  rw [List.foldl_append, join_foldl b, join_foldl a ""]
  simp

/-- Resolver answer of a well-formed SOA record: dnspython renders the
absolute mname and rname with their trailing root-dots. -/
def soaEx : Rdata :=
  { text := ""
    exchange := ""
    preference := 0
    strings := []
    mname := "ns1.example.com."
    rname := "admin.example.com."
    serial := 2024 }

/-- C1: counterexample. The claim says the normalizer never leaves a
trailing root-dot, and in particular that the composed SOA value contains no
name with a trailing root-dot. At this well-formed SOA answer the SOA branch
embeds mname and rname verbatim, so the composed value contains the name
component with its trailing root-dot intact. -/
theorem C1_counterexample :
    _extract_record_value soaEx "SOA" =
      "ns1.example.com. admin.example.com. (serial: 2024)" ∧
    hasTrailingDotComponent (_extract_record_value soaEx "SOA") = true := by
  decide

/-- C1: amended. For the record types A, AAAA, MX, NS and CNAME the
normalizer strips every trailing dot, so the record_value never ends in a
trailing root-dot; only the composed SOA value (and raw TXT text) can retain
one. -/
theorem C1_amended (r : Rdata) (t : String)
    (h : t ∈ (["A", "AAAA", "MX", "NS", "CNAME"] : List String)) :
    endsInDot (_extract_record_value r t) = false := by
  simp only [List.mem_cons, List.not_mem_nil, or_false] at h
  rcases h with h | h | h | h | h <;> subst h
  · exact endsInDot_rstripDots r.text
  · exact endsInDot_rstripDots r.text
  · exact endsInDot_rstripDots r.exchange
  · exact endsInDot_rstripDots r.text
  · exact endsInDot_rstripDots r.text

/-- Resolver answer of an MX record, the example of the specification. -/
def mxEx : Rdata :=
  { text := ""
    exchange := "mail.example.com."
    preference := 10
    strings := []
    mname := ""
    rname := ""
    serial := 0 }

/-- C1: witness for the amended statement at the MX example: the exchange
loses its trailing root-dot. -/
theorem C1_amended_witness :
    _extract_record_value mxEx "MX" = "mail.example.com" ∧
    endsInDot (_extract_record_value mxEx "MX") = false :=
  ⟨by decide, C1_amended mxEx "MX" (by decide)⟩

/-- C10: for every TXT answer, however its segment list is split, the
normalized value is the in-order concatenation of the decoded segments of
the two parts; so the whole value is the in-order concatenation of all
decoded segments. -/
theorem C10_txt_concatenation (r : Rdata) (pre post : List CharStringSeg)
    (h : r.strings = pre ++ post) :
    _extract_record_value r "TXT" =
      String.join (pre.map decodeSeg) ++ String.join (post.map decodeSeg) := by
  show String.join (r.strings.map decodeSeg) = _
  rw [h, List.map_append, join_append]

/-- Resolver answer of a multi-segment TXT record, the example of the
specification, with the second segment arriving as bytes. -/
def txtEx : Rdata :=
  { text := ""
    exchange := ""
    preference := 0
    strings :=
      [CharStringSeg.str "v=spf1 ",
       CharStringSeg.bytes
         [105, 110, 99, 108, 117, 100, 101, 58, 95, 115, 112, 102, 46,
          101, 120, 97, 109, 112, 108, 101, 46, 99, 111, 109]]
    mname := ""
    rname := ""
    serial := 0 }

/-- C10: witness at the two-segment example of the specification, one str
segment and one bytes segment, concatenated in order. -/
theorem C10_witness :
    _extract_record_value txtEx "TXT" = "v=spf1 include:_spf.example.com" := by
  have h := C10_txt_concatenation txtEx [CharStringSeg.str "v=spf1 "]
    [CharStringSeg.bytes
      [105, 110, 99, 108, 117, 100, 101, 58, 95, 115, 112, 102, 46,
       101, 120, 97, 109, 112, 108, 101, 46, 99, 111, 109]] rfl
  rw [h]
  decide

/-- Structure of the loop on a prefix free of NXDOMAIN outcomes: every type
of the prefix is queried in order and contributes its records, then the loop
continues on the rest. -/
theorem scanTypes_append (resolve : String → DnsOutcome) (pre rest : List String)
    (h : ∀ t ∈ pre, resolve t ≠ DnsOutcome.nxdomain) :
    scanTypes resolve (pre ++ rest) =
      ((pre.map (typeRecords resolve)).flatten ++ (scanTypes resolve rest).1,
       pre ++ (scanTypes resolve rest).2) := by
  induction pre with
  | nil => simp
  | cons t ts ih =>
    have ht : resolve t ≠ DnsOutcome.nxdomain := h t (by simp)
    have ih' := ih (fun u hu => h u (by simp [hu]))
    cases hr : resolve t with
    | nxdomain => exact absurd hr ht
    | success answers ttl =>
        have step : scanTypes resolve ((t :: ts) ++ rest) =
            (typeRecords resolve t ++ (scanTypes resolve (ts ++ rest)).1,
             t :: (scanTypes resolve (ts ++ rest)).2) := by
          simp only [List.cons_append, scanTypes, hr]
          rfl
        rw [step, ih']
        simp [List.append_assoc]
    | noAnswer =>
        have step : scanTypes resolve ((t :: ts) ++ rest) =
            ((scanTypes resolve (ts ++ rest)).1,
             t :: (scanTypes resolve (ts ++ rest)).2) := by
          simp only [List.cons_append, scanTypes, hr]
          rfl
        rw [step, ih']
        simp [typeRecords, hr]
    | noNameservers =>
        have step : scanTypes resolve ((t :: ts) ++ rest) =
            ((scanTypes resolve (ts ++ rest)).1,
             t :: (scanTypes resolve (ts ++ rest)).2) := by
          simp only [List.cons_append, scanTypes, hr]
          rfl
        rw [step, ih']
        simp [typeRecords, hr]
    | timeout =>
        have step : scanTypes resolve ((t :: ts) ++ rest) =
            ((scanTypes resolve (ts ++ rest)).1,
             t :: (scanTypes resolve (ts ++ rest)).2) := by
          simp only [List.cons_append, scanTypes, hr]
          rfl
        rw [step, ih']
        simp [typeRecords, hr]
    | otherError =>
        have step : scanTypes resolve ((t :: ts) ++ rest) =
            ((scanTypes resolve (ts ++ rest)).1,
             t :: (scanTypes resolve (ts ++ rest)).2) := by
          simp only [List.cons_append, scanTypes, hr]
          rfl
        rw [step, ih']
        simp [typeRecords, hr]

/-- Every record contributed by the query for one type carries that type in
its record_type field. -/
theorem typeRecords_record_type (resolve : String → DnsOutcome) (u : String)
    (r : DnsRecordDict) (hr : r ∈ typeRecords resolve u) : r.record_type = u := by
  unfold typeRecords at hr
  cases hru : resolve u <;> rw [hru] at hr <;> simp at hr
  obtain ⟨rdata, _, rfl⟩ := hr
  rfl

/-- C4: NXDOMAIN fast abort. If the first-checked type A answers NXDOMAIN
the collector returns the empty list after exactly one resolver call; and
whenever the first NXDOMAIN appears at any position of the type list, the
loop stops there, returning exactly the records the earlier types
collected and querying nothing past the NXDOMAIN type. -/
theorem C4_nxdomain_fast_abort (resolve : String → DnsOutcome) :
    (resolve "A" = DnsOutcome.nxdomain →
      scan_dns_records resolve = [] ∧ dns_queried_types resolve = ["A"]) ∧
    ∀ pre t post, RECORD_TYPES = pre ++ t :: post →
      (∀ u ∈ pre, resolve u ≠ DnsOutcome.nxdomain) →
      resolve t = DnsOutcome.nxdomain →
      scan_dns_records resolve = (pre.map (typeRecords resolve)).flatten ∧
      dns_queried_types resolve = pre ++ [t] := by
  constructor
  · intro hfirst
    constructor
    · show (scanTypes resolve RECORD_TYPES).1 = []
      simp [RECORD_TYPES, scanTypes, hfirst]
    · show (scanTypes resolve RECORD_TYPES).2 = ["A"]
      simp [RECORD_TYPES, scanTypes, hfirst]
  · intro pre t post heq hpre ht
    have h1 : scanTypes resolve RECORD_TYPES =
        ((pre.map (typeRecords resolve)).flatten ++ (scanTypes resolve (t :: post)).1,
         pre ++ (scanTypes resolve (t :: post)).2) := by
      rw [heq]; exact scanTypes_append resolve pre (t :: post) hpre
    have h2 : scanTypes resolve (t :: post) = ([], [t]) := by
      simp [scanTypes, ht]
    constructor
    · show (scanTypes resolve RECORD_TYPES).1 = _
      rw [h1, h2]
      simp
    · show (scanTypes resolve RECORD_TYPES).2 = _
      rw [h1, h2]

/-- Resolver whose every answer is NXDOMAIN. -/
def nxResolver : String → DnsOutcome := fun _ => DnsOutcome.nxdomain

/-- Resolver answer used by the mid-list NXDOMAIN witness. -/
def aAnswer : Rdata :=
  { text := "93.184.216.34"
    exchange := ""
    preference := 0
    strings := []
    mname := ""
    rname := ""
    serial := 0 }

/-- Resolver of the mid-list NXDOMAIN witness: type A succeeds with one
answer, every later type answers NXDOMAIN. -/
def midNxResolver : String → DnsOutcome := fun t =>
  if t == "A" then DnsOutcome.success [aAnswer] 300
  else DnsOutcome.nxdomain

/-- C4: witness. Against the all-NXDOMAIN resolver the collector returns
nothing after one query of type A; against the mid-list resolver the
NXDOMAIN at type AAAA stops the loop with exactly the A record already
collected and exactly the two queries A, AAAA issued. -/
theorem C4_witness :
    (scan_dns_records nxResolver = [] ∧ dns_queried_types nxResolver = ["A"]) ∧
    scan_dns_records midNxResolver =
      [{ record_type := "A", record_value := "93.184.216.34",
         ttl := 300, priority := none }] ∧
    dns_queried_types midNxResolver = ["A", "AAAA"] := by
  refine ⟨(C4_nxdomain_fast_abort nxResolver).1 rfl, ?_, ?_⟩
  · have h := (C4_nxdomain_fast_abort midNxResolver).2 ["A"] "AAAA"
      ["MX", "TXT", "NS", "CNAME", "SOA"] rfl (by decide) (by decide)
    rw [h.1]
    decide
  · exact ((C4_nxdomain_fast_abort midNxResolver).2 ["A"] "AAAA"
      ["MX", "TXT", "NS", "CNAME", "SOA"] rfl (by decide) (by decide)).2

/-- C5: soft skip. Without an NXDOMAIN outcome the collector always returns
(the embedding is total), producing exactly the concatenation of the records
of the types that succeeded, in type order; a type whose query contributed
nothing (timeout, no nameservers, no answer, any other error) yields no
record of that type in the result. -/
theorem C5_soft_skip (resolve : String → DnsOutcome)
    (h : ∀ t ∈ RECORD_TYPES, resolve t ≠ DnsOutcome.nxdomain) :
    scan_dns_records resolve = (RECORD_TYPES.map (typeRecords resolve)).flatten ∧
    ∀ t, typeRecords resolve t = [] →
      ∀ r ∈ scan_dns_records resolve, r.record_type ≠ t := by
  have hmain : scan_dns_records resolve = (RECORD_TYPES.map (typeRecords resolve)).flatten := by
    show (scanTypes resolve RECORD_TYPES).1 = _
    have := scanTypes_append resolve RECORD_TYPES [] h
    rw [List.append_nil] at this
    rw [this]
    simp [scanTypes]
  refine ⟨hmain, ?_⟩
  intro t ht r hr heq
  rw [hmain] at hr
  rw [List.mem_flatten] at hr
  obtain ⟨l, hl, hrl⟩ := hr
  rw [List.mem_map] at hl
  obtain ⟨u, _, rfl⟩ := hl
  have hu : r.record_type = u := typeRecords_record_type resolve u r hrl
  rw [heq] at hu
  rw [← hu] at hrl
  rw [ht] at hrl
  exact List.not_mem_nil r hrl

/-- Resolver answer used by the soft-skip witness. -/
def mxAnswer : Rdata :=
  { text := ""
    exchange := "mail.example.com."
    preference := 10
    strings := []
    mname := ""
    rname := ""
    serial := 0 }

/-- Resolver of the soft-skip witness: type A times out, type MX succeeds
with one answer, every other type has no records. -/
def softSkipResolver : String → DnsOutcome := fun t =>
  if t == "MX" then DnsOutcome.success [mxAnswer] 600
  else if t == "A" then DnsOutcome.timeout
  else DnsOutcome.noAnswer

/-- C5: witness. Type A times out while type MX succeeds: the result is
exactly the MX record and contains no A record, with no error raised. -/
theorem C5_witness :
    (∀ t ∈ RECORD_TYPES, softSkipResolver t ≠ DnsOutcome.nxdomain) ∧
    scan_dns_records softSkipResolver =
      [{ record_type := "MX", record_value := "mail.example.com",
         ttl := 600, priority := some 10 }] ∧
    ∀ r ∈ scan_dns_records softSkipResolver, r.record_type ≠ "A" := by
  refine ⟨by decide, by decide, ?_⟩
  exact (C5_soft_skip softSkipResolver (by decide)).2 "A" (by decide)

/-- Core of the name-server normalization applied to an entry list: drop
falsy entries, normalize each, deduplicate, absent when empty, else sort. -/
def normCore (entries : List String) : Option (List String) :=
  if ((entries.filter (fun x => x ≠ "")).map normEntry).dedup = [] then none
  else some ((((entries.filter (fun x => x ≠ "")).map normEntry).dedup).insertionSort
    (fun a b => strLe a b = true))

/-- Normalizing a lone string or a list both reduce to the core on the raw
entry list. -/
theorem _normalize_nameservers_eq_core (i : NsInput) (h : i ≠ NsInput.nil) :
    _normalize_nameservers i = normCore (rawEntries i) := by
  cases i with
  | nil => exact absurd rfl h
  | one s => rfl
  | many l => rfl

/-- Core normalization never yields the empty list: an empty result is
absent instead. -/
theorem normCore_ne_some_nil (entries : List String) :
    normCore entries ≠ some [] := by
  unfold normCore
  by_cases hnil : ((entries.filter (fun x => x ≠ "")).map normEntry).dedup = []
  · rw [if_pos hnil]
    exact fun hcon => Option.noConfusion hcon
  · rw [if_neg hnil]
    intro hcon
    have hl := Option.some.inj hcon
    have hlen : (((entries.filter (fun x => x ≠ "")).map normEntry).dedup).length = 0 := by
      rw [← List.length_insertionSort (fun a b : String => strLe a b = true), hl]
      rfl
    exact hnil (List.length_eq_zero.mp hlen)

/-- Core normalization output is sorted, deduplicated, consists exactly of
the normalized nonempty raw entries, and contains every normalized nonempty
raw entry. -/
theorem normCore_spec (entries l : List String) (h : normCore entries = some l) :
    List.Sorted (fun a b : String => strLe a b = true) l ∧ l.Nodup ∧
    (∀ s ∈ l, ∃ raw ∈ entries, s = normEntry raw) ∧
    (∀ raw ∈ entries, raw ≠ "" → normEntry raw ∈ l) := by
  unfold normCore at h
  by_cases hnil : ((entries.filter (fun x => x ≠ "")).map normEntry).dedup = []
  · rw [if_pos hnil] at h
    exact Option.noConfusion h
  · rw [if_neg hnil] at h
    have hl := Option.some.inj h
    set d := ((entries.filter (fun x => x ≠ "")).map normEntry).dedup with hd
    rw [← hl]
    refine ⟨List.sorted_insertionSort _ d, ?_, ?_, ?_⟩
    · exact (List.perm_insertionSort (fun a b : String => strLe a b = true) d).symm.nodup
        (List.nodup_dedup _)
    · intro s hs
      rw [List.mem_insertionSort] at hs
      rw [hd, List.mem_dedup, List.mem_map] at hs
      obtain ⟨raw, hraw, rfl⟩ := hs
      rw [List.mem_filter] at hraw
      exact ⟨raw, hraw.1, rfl⟩
    · intro raw hraw hne
      rw [List.mem_insertionSort, hd, List.mem_dedup, List.mem_map]
      refine ⟨raw, ?_, rfl⟩
      rw [List.mem_filter]
      exact ⟨hraw, by simpa using hne⟩

/-- C8: for every input shape the normalizer yields either absent or a
lexicographically sorted deduplicated list of lowercased entries with
trailing root-dots stripped; the list is never empty, covers exactly the
nonempty raw entries, and covers all of them. -/
theorem C8_nameserver_normalization (i : NsInput) :
    _normalize_nameservers i ≠ some [] ∧
    ∀ l, _normalize_nameservers i = some l →
      List.Sorted (fun a b : String => strLe a b = true) l ∧ l.Nodup ∧
      (∀ s ∈ l, ∃ raw ∈ rawEntries i, s = normEntry raw) ∧
      (∀ raw ∈ rawEntries i, raw ≠ "" → normEntry raw ∈ l) := by
  cases hi : i with
  | nil =>
    constructor
    · intro hcon; exact Option.noConfusion hcon
    · intro l hl; exact Option.noConfusion hl
  | one s =>
    rw [_normalize_nameservers_eq_core (NsInput.one s) (by intro hcon; exact NsInput.noConfusion hcon)]
    exact ⟨normCore_ne_some_nil _, fun l hl => normCore_spec _ l hl⟩
  | many lst =>
    rw [_normalize_nameservers_eq_core (NsInput.many lst) (by intro hcon; exact NsInput.noConfusion hcon)]
    exact ⟨normCore_ne_some_nil _, fun l hl => normCore_spec _ l hl⟩

/-- C8: witness at the example of the specification: mixed case, trailing
root-dot, duplicate entry. -/
theorem C8_witness :
    _normalize_nameservers
        (NsInput.many ["NS2.Example.com.", "ns1.example.com", "ns1.example.com"]) =
      some ["ns1.example.com", "ns2.example.com"] ∧
    List.Sorted (fun a b : String => strLe a b = true) ["ns1.example.com", "ns2.example.com"] ∧
    (["ns1.example.com", "ns2.example.com"] : List String).Nodup := by
  have heq : _normalize_nameservers
      (NsInput.many ["NS2.Example.com.", "ns1.example.com", "ns1.example.com"]) =
      some ["ns1.example.com", "ns2.example.com"] := by decide
  have hs := (C8_nameserver_normalization
      (NsInput.many ["NS2.Example.com.", "ns1.example.com", "ns1.example.com"])).2
      _ heq
  exact ⟨heq, hs.1, hs.2.1⟩

/-- C9: scan_whois never raises (the embedding is total over every outcome
of the lookup capability) and returns no data on a parse failure, on any
other failure, and on a parsed response whose domain field is nil. -/
theorem C9_whois_never_raises (o : WhoisOutcome) :
    (o = WhoisOutcome.pywhoisError → scan_whois o = none) ∧
    (o = WhoisOutcome.otherError → scan_whois o = none) ∧
    (∀ w, o = WhoisOutcome.parsed w → w.domain_name = none → scan_whois o = none) := by
  refine ⟨fun h => by rw [h]; rfl, fun h => by rw [h]; rfl, fun w h hd => ?_⟩
  rw [h]
  simp only [scan_whois, hd]

/-- Parsed WHOIS response with a nil domain field. -/
def nilDomainResp : WhoisResp :=
  { domain_name := none
    registrar := StrOrList.nil
    creation_date := DateVal.nil
    expiration_date := DateVal.nil
    updated_date := DateVal.nil
    name_servers := NsInput.nil
    country := StrOrList.nil
    text := none }

/-- C9: witness at the three failure outcomes. -/
theorem C9_witness :
    scan_whois WhoisOutcome.pywhoisError = none ∧
    scan_whois WhoisOutcome.otherError = none ∧
    scan_whois (WhoisOutcome.parsed nilDomainResp) = none :=
  ⟨(C9_whois_never_raises WhoisOutcome.pywhoisError).1 rfl,
   (C9_whois_never_raises WhoisOutcome.otherError).2.1 rfl,
   (C9_whois_never_raises (WhoisOutcome.parsed nilDomainResp)).2.2 nilDomainResp rfl rfl⟩

/-- Updating the freshly appended scan row touches no earlier row. -/
theorem map_update_append (old : List ScanRow) (scan : ScanRow) (f : ScanRow → ScanRow)
    (h : ∀ s ∈ old, s.id ≠ scan.id) :
    (old ++ [scan]).map (fun s => if s.id == scan.id then f s else s) = old ++ [f scan] := by
  rw [List.map_append]
  congr 1
  · induction old with
    | nil => rfl
    | cons a t ih =>
      have ha : a.id ≠ scan.id := h a (by simp)
      simp only [List.map_cons]
      rw [if_neg (by simpa using ha)]
      rw [ih (fun s hs => h s (by simp [hs]))]
  · simp

/-- Domain id the scan row of create_scan points at: the found row, else the
freshly created one. -/
def assignedDomainId (req : ScanCreate) (db : DB) : Nat :=
  match db.domains.find? (fun d => d.domain_name == req.domain_name.toLower) with
  | some d => d.id
  | none => db.nextDomainId

/-- Structure of create_scan on the scans table: exactly one row is
appended, carrying the next scan id and pointing at the assigned domain;
its remaining fields and the response are determined by the branch taken.
With the subdomain step on, the TypeError is handled and the row is
committed failed with completion time; with the injected final-commit
fault, the handler commit raises on the pending-rollback session, so the
row keeps its committed running state with no completion time and the
exception escapes; otherwise the row is committed completed. -/
theorem create_scan_struct (req : ScanCreate) (env : ScanEnv) (db : DB)
    (hfresh : ∀ s ∈ db.scans, s.id < db.nextScanId) :
    ∃ s : ScanRow,
      (create_scan req env db).1.scans = db.scans ++ [s] ∧
      s.id = db.nextScanId ∧
      s.domain_id = assignedDomainId req db ∧
      (if req.include_subdomains then
          s.status = "failed" ∧ s.error_message = some coroutineTypeErrorMsg ∧
          s.completed_at = some env.now ∧
          (create_scan req env db).2 =
            ScanOutcome.httpError 500 ("Scan failed: " ++ coroutineTypeErrorMsg)
        else if env.failFinalCommit then
          s.status = "running" ∧ s.error_message = none ∧
          s.completed_at = none ∧
          (create_scan req env db).2 = ScanOutcome.unhandledError pendingRollbackMsg
        else
          s.status = "completed" ∧ s.error_message = none ∧
          s.completed_at = some env.now ∧
          (create_scan req env db).2 = ScanOutcome.created db.nextScanId) := by
  have hne : ∀ s ∈ db.scans, s.id ≠ db.nextScanId :=
    fun s hs => Nat.ne_of_lt (hfresh s hs)
  cases hfound : db.domains.find? (fun d => d.domain_name == req.domain_name.toLower) with
  | some d =>
    by_cases hsub : req.include_subdomains
    · refine ⟨⟨db.nextScanId, d.id, "failed", some env.now, some coroutineTypeErrorMsg⟩,
        ?_, rfl, ?_, ?_⟩
      · simp only [create_scan, hfound, hsub, if_true, updateScan]
        exact map_update_append db.scans ⟨db.nextScanId, d.id, "running", none, none⟩ _ hne
      · simp [assignedDomainId, hfound]
      · simp only [hsub, if_true]
        refine ⟨trivial, trivial, trivial, ?_⟩
        simp only [create_scan, hfound, hsub, if_true]
    · by_cases hfc : env.failFinalCommit
      · refine ⟨⟨db.nextScanId, d.id, "running", none, none⟩, ?_, rfl, ?_, ?_⟩
        · simp only [create_scan, hfound, hsub, hfc, if_true, if_false, Bool.false_eq_true]
        · simp [assignedDomainId, hfound]
        · simp only [hsub, hfc, if_true, if_false, Bool.false_eq_true]
          refine ⟨trivial, trivial, trivial, ?_⟩
          simp only [create_scan, hfound, hsub, hfc, if_true, if_false, Bool.false_eq_true]
      · refine ⟨⟨db.nextScanId, d.id, "completed", some env.now, none⟩, ?_, rfl, ?_, ?_⟩
        · simp only [create_scan, hfound, hsub, hfc, if_false, Bool.false_eq_true, updateScan]
          exact map_update_append db.scans ⟨db.nextScanId, d.id, "running", none, none⟩ _ hne
        · simp [assignedDomainId, hfound]
        · simp only [hsub, hfc, if_false, Bool.false_eq_true]
          refine ⟨trivial, trivial, trivial, ?_⟩
          simp only [create_scan, hfound, hsub, hfc, if_false, Bool.false_eq_true]
  | none =>
    by_cases hsub : req.include_subdomains
    · refine ⟨⟨db.nextScanId, db.nextDomainId, "failed", some env.now,
          some coroutineTypeErrorMsg⟩, ?_, rfl, ?_, ?_⟩
      · simp only [create_scan, hfound, hsub, if_true, updateScan]
        exact map_update_append db.scans
          ⟨db.nextScanId, db.nextDomainId, "running", none, none⟩ _ hne
      · simp [assignedDomainId, hfound]
      · simp only [hsub, if_true]
        refine ⟨trivial, trivial, trivial, ?_⟩
        simp only [create_scan, hfound, hsub, if_true]
    · by_cases hfc : env.failFinalCommit
      · refine ⟨⟨db.nextScanId, db.nextDomainId, "running", none, none⟩, ?_, rfl, ?_, ?_⟩
        · simp only [create_scan, hfound, hsub, hfc, if_true, if_false, Bool.false_eq_true]
        · simp [assignedDomainId, hfound]
        · simp only [hsub, hfc, if_true, if_false, Bool.false_eq_true]
          refine ⟨trivial, trivial, trivial, ?_⟩
          simp only [create_scan, hfound, hsub, hfc, if_true, if_false, Bool.false_eq_true]
      · refine ⟨⟨db.nextScanId, db.nextDomainId, "completed", some env.now, none⟩,
          ?_, rfl, ?_, ?_⟩
        · simp only [create_scan, hfound, hsub, hfc, if_false, Bool.false_eq_true, updateScan]
          exact map_update_append db.scans
            ⟨db.nextScanId, db.nextDomainId, "running", none, none⟩ _ hne
        · simp [assignedDomainId, hfound]
        · simp only [hsub, hfc, if_false, Bool.false_eq_true]
          refine ⟨trivial, trivial, trivial, ?_⟩
          simp only [create_scan, hfound, hsub, hfc, if_false, Bool.false_eq_true]

/-- Structure of create_scan on the domains table and the key counters: a
Domain row is appended only when the name was absent, and exactly one scan
id is consumed. -/
theorem create_scan_domains (req : ScanCreate) (env : ScanEnv) (db : DB) :
    ((create_scan req env db).1.domains =
      match db.domains.find? (fun d => d.domain_name == req.domain_name.toLower) with
      | some _ => db.domains
      | none => db.domains ++ [⟨db.nextDomainId, req.domain_name.toLower⟩]) ∧
    (create_scan req env db).1.nextScanId = db.nextScanId + 1 ∧
    ((create_scan req env db).1.nextDomainId =
      match db.domains.find? (fun d => d.domain_name == req.domain_name.toLower) with
      | some _ => db.nextDomainId
      | none => db.nextDomainId + 1) := by
  cases hfound : db.domains.find? (fun d => d.domain_name == req.domain_name.toLower) with
  | some d =>
    by_cases hsub : req.include_subdomains <;> by_cases hfc : env.failFinalCommit <;>
      simp [create_scan, hfound, hsub, hfc, updateScan]
  | none =>
    by_cases hsub : req.include_subdomains <;> by_cases hfc : env.failFinalCommit <;>
      simp [create_scan, hfound, hsub, hfc, updateScan]

/-- Empty initial store. -/
def db0 : DB :=
  { domains := [], scans := [], dns_records := [], whois_rows := []
    nextDomainId := 1, nextScanId := 1 }

/-- Request with the subdomain step disabled. -/
def reqNoSub : ScanCreate :=
  { domain_name := "Example.com", include_subdomains := false, include_whois := true }

/-- Environment injecting a failure at the final status commit. -/
def envFailCommit : ScanEnv :=
  { dnsResolve := fun _ => DnsOutcome.noAnswer
    whoisOutcome := WhoisOutcome.otherError
    failFinalCommit := true
    now := 42 }

/-- Lowercasing a string is the character-by-character map, stated so that
concrete runs of create_scan evaluate by computation. -/
theorem toLower_eq_lowerStr (s : String) : s.toLower = lowerStr s := by
  show String.map Char.toLower s = lowerStr s
  rw [String.map_eq]
  rfl

/-- C2: the claim fails on the code. With the subdomain step disabled,
execution reaches the final status commit; when the persistence layer
raises there, the session is left in pending-rollback state and the except
handler never calls rollback, so its own commit raises
PendingRollbackError instead of persisting the failed status: re-reading
the store afterwards finds the scan row still in running state with no
error detail and no completion time, and the exception escapes
create_scan. Evaluated at a concrete request, environment and empty
store. -/
theorem C2_scan_left_running :
    (create_scan reqNoSub envFailCommit db0).1.scans =
      [⟨1, 1, "running", none, none⟩] ∧
    (create_scan reqNoSub envFailCommit db0).2 =
      ScanOutcome.unhandledError pendingRollbackMsg := by
  unfold create_scan
  rw [toLower_eq_lowerStr]
  decide

/-- C3: the subdomain stub breaks the scan. Whenever the request keeps the
include_subdomains default of true, the orchestrator iterates the coroutine
returned by the async scan_subdomains stub, the resulting TypeError is
caught, the scan row is committed as failed with that error text, and the
caller receives a 500 answer instead of a completed scan. -/
theorem C3_subdomain_type_error (req : ScanCreate) (env : ScanEnv) (db : DB)
    (hfresh : ∀ s ∈ db.scans, s.id < db.nextScanId)
    (hsub : req.include_subdomains = true) :
    ∃ s : ScanRow,
      (create_scan req env db).1.scans = db.scans ++ [s] ∧
      s.status = "failed" ∧
      s.error_message = some coroutineTypeErrorMsg ∧
      s.completed_at = some env.now ∧
      (create_scan req env db).2 =
        ScanOutcome.httpError 500 ("Scan failed: " ++ coroutineTypeErrorMsg) := by
  obtain ⟨s, hscans, _, _, hbr⟩ := create_scan_struct req env db hfresh
  rw [hsub] at hbr
  simp only [if_true] at hbr
  exact ⟨s, hscans, hbr.1, hbr.2.1, hbr.2.2.1, hbr.2.2.2⟩

/-- Request keeping every ScanCreate default, in particular
include_subdomains = true. -/
def reqDefault : ScanCreate := { domain_name := "example.com" }

/-- Environment with no injected persistence fault. -/
def envOk : ScanEnv :=
  { dnsResolve := fun _ => DnsOutcome.noAnswer
    whoisOutcome := WhoisOutcome.otherError
    failFinalCommit := false
    now := 7 }

/-- C3: witness at the default request against the empty store. -/
theorem C3_witness :
    ∃ s : ScanRow,
      (create_scan reqDefault envOk db0).1.scans = db0.scans ++ [s] ∧
      s.status = "failed" ∧
      s.error_message = some coroutineTypeErrorMsg ∧
      s.completed_at = some envOk.now ∧
      (create_scan reqDefault envOk db0).2 =
        ScanOutcome.httpError 500 ("Scan failed: " ++ coroutineTypeErrorMsg) :=
  C3_subdomain_type_error reqDefault envOk db0
    (fun s hs => absurd hs (List.not_mem_nil s)) rfl

/-- Invariant of the specification on one scan row: status completed or
failed exactly when the completion time is set, and a running row has no
completion time. -/
def scanStatusInvariant (s : ScanRow) : Prop :=
  ((s.status = "completed" ∨ s.status = "failed") ↔ s.completed_at ≠ none) ∧
  (s.status = "running" → s.completed_at = none)

/-- C6: the status/completion invariant holds for the freshly created
running row (scan creation) and is preserved into every row of the store
after create_scan on all three paths: the success commit and the failure
commit set completion time together with a terminal status, and the
pending-rollback path leaves the row running with null completion. -/
theorem C6_status_completion_invariant (req : ScanCreate) (env : ScanEnv) (db : DB)
    (hfresh : ∀ s ∈ db.scans, s.id < db.nextScanId)
    (hinv : ∀ s ∈ db.scans, scanStatusInvariant s) :
    (∀ n i, scanStatusInvariant ⟨n, i, "running", none, none⟩) ∧
    ∀ s ∈ (create_scan req env db).1.scans, scanStatusInvariant s := by
  constructor
  · intro n i
    constructor
    · constructor
      · rintro (h | h) <;> simp at h
      · intro h; exact absurd rfl h
    · intro _; rfl
  · obtain ⟨s, hscans, _, _, hbr⟩ := create_scan_struct req env db hfresh
    intro x hx
    rw [hscans] at hx
    rcases List.mem_append.mp hx with hold | hnew
    · exact hinv x hold
    · have hx2 : x = s := by simpa using hnew
      subst hx2
      split at hbr
      · refine ⟨⟨fun _ => ?_, fun _ => Or.inr hbr.1⟩, fun hrun => ?_⟩
        · rw [hbr.2.2.1]; simp
        · exact absurd (hbr.1.symm.trans hrun) (by decide)
      · split at hbr
        · refine ⟨⟨?_, fun hne2 => absurd hbr.2.2.1 hne2⟩, fun _ => hbr.2.2.1⟩
          rintro (h | h)
          · exact absurd (hbr.1.symm.trans h) (by decide)
          · exact absurd (hbr.1.symm.trans h) (by decide)
        · refine ⟨⟨fun _ => ?_, fun _ => Or.inl hbr.1⟩, fun hrun => ?_⟩
          · rw [hbr.2.2.1]; simp
          · exact absurd (hbr.1.symm.trans hrun) (by decide)

/-- C6: witness at a concrete request, environment and store. -/
theorem C6_witness :
    (∀ n i, scanStatusInvariant ⟨n, i, "running", none, none⟩) ∧
    ∀ s ∈ (create_scan reqDefault envOk db0).1.scans, scanStatusInvariant s :=
  C6_status_completion_invariant reqDefault envOk db0
    (fun s hs => absurd hs (List.not_mem_nil s))
    (fun s hs => absurd hs (List.not_mem_nil s))

/-- Filtering keeps exactly one row when the row is in the list, every
match equals it, and the list has no duplicates. -/
theorem filter_eq_singleton (l : List DomainRow) (dn : String) (a : DomainRow)
    (ha : a ∈ l) (hpa : a.domain_name = dn)
    (huniq : ∀ x ∈ l, x.domain_name = dn → x = a) (hnd : l.Nodup) :
    l.filter (fun x => x.domain_name == dn) = [a] := by
  induction l with
  | nil => exact absurd ha (List.not_mem_nil a)
  | cons b t ih =>
    rcases List.mem_cons.mp ha with hba | hat
    · subst hba
      rw [List.filter_cons_of_pos (by simp [hpa])]
      have hnota : a ∉ t := (List.nodup_cons.mp hnd).1
      have ht : t.filter (fun x => x.domain_name == dn) = [] := by
        rw [List.filter_eq_nil_iff]
        intro x hx
        simp only [beq_iff_eq]
        intro hxdn
        have hxa : x = a := huniq x (List.mem_cons_of_mem _ hx) hxdn
        exact hnota (hxa ▸ hx)
      rw [ht]
    · have hb : ¬ b.domain_name = dn := by
        intro hbd
        have hba2 : b = a := huniq b (List.mem_cons_self b t) hbd
        subst hba2
        exact (List.nodup_cons.mp hnd).1 hat
      rw [List.filter_cons_of_neg (by simpa using hb)]
      exact ih hat (fun x hx hxd => huniq x (List.mem_cons_of_mem _ hx) hxd)
        (List.nodup_cons.mp hnd).2

/-- C7: two calls with the same domain name append two distinct Scan rows,
both pointing at one single Domain row carrying the lowercased name; the
second call creates no Domain row, and no pre-existing Scan row is touched
(the scans table is append-only history). -/
theorem C7_two_scans_one_domain (req1 req2 : ScanCreate) (env1 env2 : ScanEnv) (db : DB)
    (hwf : db.WF) (hname : req2.domain_name = req1.domain_name) :
    ∃ d : DomainRow, ∃ s1 s2 : ScanRow,
      d.domain_name = req1.domain_name.toLower ∧
      ((create_scan req2 env2 (create_scan req1 env1 db).1).1.domains.filter
        (fun x => x.domain_name == req1.domain_name.toLower)) = [d] ∧
      (create_scan req2 env2 (create_scan req1 env1 db).1).1.domains =
        (create_scan req1 env1 db).1.domains ∧
      (create_scan req2 env2 (create_scan req1 env1 db).1).1.scans =
        db.scans ++ [s1, s2] ∧
      s1.id ≠ s2.id ∧
      s1.domain_id = d.id ∧ s2.domain_id = d.id ∧
      s1 ∉ db.scans ∧ s2 ∉ db.scans := by
  obtain ⟨hdomid, hscanid, hdomnodup, hscannodup, hnameuniq⟩ := hwf
  obtain ⟨s1, hscans1, hid1, hdom1, _⟩ := create_scan_struct req1 env1 db hscanid
  obtain ⟨hdoms1, hnext1, _⟩ := create_scan_domains req1 env1 db
  have hfresh1 : ∀ s ∈ (create_scan req1 env1 db).1.scans,
      s.id < (create_scan req1 env1 db).1.nextScanId := by
    rw [hscans1, hnext1]
    intro s hs
    rcases List.mem_append.mp hs with hold | hnew
    · exact Nat.lt_succ_of_lt (hscanid s hold)
    · have hss : s = s1 := by simpa using hnew
      subst hss
      rw [hid1]
      exact Nat.lt_succ_self _
  obtain ⟨s2, hscans2, hid2, hdom2, _⟩ :=
    create_scan_struct req2 env2 (create_scan req1 env1 db).1 hfresh1
  obtain ⟨hdoms2, _, _⟩ := create_scan_domains req2 env2 (create_scan req1 env1 db).1
  cases hfound : db.domains.find? (fun x => x.domain_name == req1.domain_name.toLower) with
  | some d0 =>
    have hd0name : d0.domain_name = req1.domain_name.toLower := by
      have := List.find?_some hfound
      simpa using this
    have hd0mem : d0 ∈ db.domains := List.mem_of_find?_eq_some hfound
    simp only [hfound] at hdoms1
    have hfound2 : (create_scan req1 env1 db).1.domains.find?
        (fun x => x.domain_name == req2.domain_name.toLower) = some d0 := by
      rw [hdoms1, hname]
      exact hfound
    simp only [hfound2] at hdoms2
    have ha1 : s1.domain_id = d0.id := by
      rw [hdom1]
      simp [assignedDomainId, hfound]
    have ha2 : s2.domain_id = d0.id := by
      rw [hdom2]
      simp [assignedDomainId, hfound2]
    refine ⟨d0, s1, s2, hd0name, ?_, hdoms2, ?_, ?_, ha1, ha2, ?_, ?_⟩
    · rw [hdoms2, hdoms1]
      exact filter_eq_singleton db.domains _ d0 hd0mem hd0name
        (fun x hx hxd => hnameuniq x hx d0 hd0mem (hxd.trans hd0name.symm))
        (List.Nodup.of_map DomainRow.id hdomnodup)
    · rw [hscans2, hscans1, List.append_assoc]
      rfl
    · rw [hid1, hid2, hnext1]
      omega
    · intro hmem
      have hlt := hscanid s1 hmem
      rw [hid1] at hlt
      omega
    · intro hmem
      have hlt := hscanid s2 hmem
      rw [hid2, hnext1] at hlt
      omega
  | none =>
    have hnotin : ∀ x ∈ db.domains, ¬ (x.domain_name == req1.domain_name.toLower) = true :=
      List.find?_eq_none.mp hfound
    simp only [hfound] at hdoms1
    have hfound2 : (create_scan req1 env1 db).1.domains.find?
        (fun x => x.domain_name == req2.domain_name.toLower) =
        some ⟨db.nextDomainId, req1.domain_name.toLower⟩ := by
      rw [hdoms1, hname, List.find?_append, hfound]
      simp [List.find?]
    simp only [hfound2] at hdoms2
    have ha1 : s1.domain_id = db.nextDomainId := by
      rw [hdom1]
      simp [assignedDomainId, hfound]
    have ha2 : s2.domain_id = db.nextDomainId := by
      rw [hdom2]
      simp [assignedDomainId, hfound2]
    refine ⟨⟨db.nextDomainId, req1.domain_name.toLower⟩, s1, s2, rfl, ?_, hdoms2,
      ?_, ?_, ha1, ha2, ?_, ?_⟩
    · rw [hdoms2, hdoms1]
      apply filter_eq_singleton
      · exact List.mem_append.mpr (Or.inr (by simp))
      · rfl
      · intro x hx hxd
        rcases List.mem_append.mp hx with hin | hnew2
        · exact absurd (by simpa using hxd) (hnotin x hin)
        · simpa using hnew2
      · rw [List.nodup_append]
        refine ⟨List.Nodup.of_map DomainRow.id hdomnodup, List.nodup_singleton _, ?_⟩
        intro x hx hx2
        have hxeq : x = ⟨db.nextDomainId, req1.domain_name.toLower⟩ := by simpa using hx2
        subst hxeq
        have hlt := hdomid _ hx
        simp at hlt
    · rw [hscans2, hscans1, List.append_assoc]
      rfl
    · rw [hid1, hid2, hnext1]
      omega
    · intro hmem
      have hlt := hscanid s1 hmem
      rw [hid1] at hlt
      omega
    · intro hmem
      have hlt := hscanid s2 hmem
      rw [hid2, hnext1] at hlt
      omega

/-- C7: witness, running the default request twice against the empty
store. -/
theorem C7_witness :
    ∃ d : DomainRow, ∃ s1 s2 : ScanRow,
      d.domain_name = reqDefault.domain_name.toLower ∧
      ((create_scan reqDefault envOk (create_scan reqDefault envOk db0).1).1.domains.filter
        (fun x => x.domain_name == reqDefault.domain_name.toLower)) = [d] ∧
      (create_scan reqDefault envOk (create_scan reqDefault envOk db0).1).1.domains =
        (create_scan reqDefault envOk db0).1.domains ∧
      (create_scan reqDefault envOk (create_scan reqDefault envOk db0).1).1.scans =
        db0.scans ++ [s1, s2] ∧
      s1.id ≠ s2.id ∧
      s1.domain_id = d.id ∧ s2.domain_id = d.id ∧
      s1 ∉ db0.scans ∧ s2 ∉ db0.scans :=
  C7_two_scans_one_domain reqDefault reqDefault envOk envOk db0
    ⟨by simp [db0], by simp [db0], by simp [db0], by simp [db0], by simp [db0]⟩ rfl
